import Mathlib

/-
Verification of the agent/workflow orchestration core of this repository
(source file src/009_agents.ts, an Effect-TS program).

The embedding is shallow.  An Effect value is modelled as a state-passing
function over an explicit run state `EffState` that carries
  - the AgentStateService closure variables (conversation history and
    execution context),
  - the injected decision provider (the source stands in Math.random for
    it: `Math.floor(Math.random() * len)` for capability selection and
    `Math.random() > 0.5` for doIf conditions; following the spec these
    are modelled as an injected oracle, consulted one entry at a time
    through call counters, so each consultation is a distinct event).
A run result is either a success, a typed error (the Effect error
channel: ParseError and friends), or a defect (Effect.die).
-/

namespace Agents

/-- Model of ActionReturn: completion flag plus result string. -/
structure ActionReturn where
  done : Bool
  result : String
deriving Repr, DecidableEq

/-- The typed error channel: ParseError, AgentExecutionError and
FlowExecutionError from the source, plus a constructor for the
domain-specific errors (the generic E parameter) of example actions. -/
inductive AgentError where
  | parseError (message : String)
  | agentExecutionError (message : String)
  | flowExecutionError (message : String)
  | domainError (message : String)
deriving Repr, DecidableEq

/-- Untyped records (Record<string, unknown>) are modelled as string-keyed
association lists of string values. -/
abbrev Args := List (String × String)

/-- Closure state of AgentStateService: conversationHistory and
executionState. -/
structure AgentState where
  conversationHistory : List String
  executionState : Args
deriving Repr, DecidableEq

/-- The injected decision provider (abstracting the Math.random stand-in):
a stream of booleans for doIf conditions and a stream of raw selection
indices for capability selection, both indexed by consultation count. -/
structure DecisionOracle where
  bools : Nat → Bool
  nats : Nat → Nat

/-- Full run state threaded by the effect model: the store, the decision
provider, and the number of consultations made so far on each stream. -/
structure EffState where
  store : AgentState
  oracle : DecisionOracle
  boolCalls : Nat
  natCalls : Nat

/-- Outcome of running an effect: success, typed error (the Effect error
channel), or defect (Effect.die). -/
inductive RunResult (α : Type) where
  | ok (value : α)
  | error (e : AgentError)
  | defect (message : String)
deriving Repr

/-- Shallow model of an Effect value: a state-passing function. -/
def Eff (α : Type) : Type := EffState → RunResult α × EffState

/-- Effect.succeed. -/
def Eff.pure {α : Type} (a : α) : Eff α := fun s => (.ok a, s)

/-- Effect.flatMap: run the first effect; on success continue, on error or
defect stop and propagate. -/
def Eff.bind {α β : Type} (e : Eff α) (f : α → Eff β) : Eff β := fun s =>
  match e s with
  | (.ok a, s₁) => f a s₁
  | (.error err, s₁) => (.error err, s₁)
  | (.defect m, s₁) => (.defect m, s₁)

/-- Effect.map. -/
def Eff.map {α β : Type} (f : α → β) (e : Eff α) : Eff β :=
  e.bind (fun a => Eff.pure (f a))

/-- Effect.fail with a typed error. -/
def Eff.fail {α : Type} (e : AgentError) : Eff α := fun s => (.error e, s)

/-- Effect.die: terminate the run with a defect, outside the typed error
channel. -/
def Eff.die {α : Type} (m : String) : Eff α := fun s => (.defect m, s)

/-- Append one message to the conversation history (Array.push on the
closure array of the service). -/
def appendHistory (m : String) (st : AgentState) : AgentState :=
  { st with conversationHistory := st.conversationHistory ++ [m] }

/-- AgentStateService.addMessage. -/
def addMessage (m : String) : Eff Unit := fun s =>
  (.ok (), { s with store := appendHistory m s.store })

/-- Shallow merge of two execution-state records: keys of the update win
over earlier keys (the object-spread in updateState). -/
def mergeContext (old upd : Args) : Args :=
  old.filter (fun kv => (upd.find? (fun kv2 => kv2.1 == kv.1)).isNone) ++ upd

/-- AgentStateService.updateState. -/
def updateState (upd : Args) : Eff Unit := fun s =>
  (.ok (), { s with store :=
    { s.store with executionState := mergeContext s.store.executionState upd } })

/-- AgentStateService.getState. -/
def getState : Eff Args := fun s => (.ok s.store.executionState, s)

/-- A reference to the single live conversationHistory array owned by the
service closure.  The closure allocates exactly one array for its whole
lifetime and mutates it in place with push, so a reference needs no
address: reading through it always reads that one array. -/
inductive HistoryRef where
  | mk
deriving Repr, DecidableEq

/-- AgentStateService.getHistory, modelled faithfully to the source line
`getHistory = () => Effect.succeed(conversationHistory)`: it returns the
reference to the live closure array, not a copy of its contents. -/
def getHistory : Eff HistoryRef := fun s => (.ok HistoryRef.mk, s)

/-- Read the current contents of the history array through a previously
obtained reference. -/
def HistoryRef.view (_ : HistoryRef) : Eff (List String) := fun s =>
  (.ok s.store.conversationHistory, s)

/-- Consult the decision provider for a doIf condition (the source stands
in `Math.random() > 0.5`): reads the next boolean of the stream and
advances the consultation counter. -/
def nextBool : Eff Bool := fun s =>
  (.ok (s.oracle.bools s.boolCalls), { s with boolCalls := s.boolCalls + 1 })

/-- Consult the decision provider for a capability selection index (the
source stands in `Math.floor(Math.random() * capabilities.length)`):
reads the next raw index of the stream and advances the counter. -/
def nextNat : Eff Nat := fun s =>
  (.ok (s.oracle.nats s.natCalls), { s with natCalls := s.natCalls + 1 })

-- ===== Action =====

/-- Model of an Action: the Params field is the schema, modelled as its
decoding function (Schema.decodeUnknown composed with the stringification
of the schema error). -/
structure Action where
  name : String
  description : String
  Params : Args → Except String Args
  handle : Args → Eff ActionReturn

/-- Configuration record accepted by createAction. -/
structure ActionConfig where
  name : String
  description : String
  Params : Args → Except String Args
  execute : Args → Eff ActionReturn

/-- Lift a decode outcome into the effect model, wrapping a decode failure
into ParseError (the Schema.decodeUnknown / Effect.mapError pipeline of
createAction; the stringified schema error is the carried message). -/
def decodeParams (d : Except String Args) : Eff Args :=
  match d with
  | .ok v => Eff.pure v
  | .error m => Eff.fail (.parseError m)

/-- createAction: handle decodes the raw arguments with the schema and
only on success flatMaps into the configured execute function. -/
def createAction (config : ActionConfig) : Action :=
  { name := config.name
    description := config.description
    Params := config.Params
    handle := fun args => (decodeParams (config.Params args)).bind config.execute }

-- ===== Flow DSL =====

/-- FlowIntermediateResult with its optional nextState field. -/
structure FlowIntermediateResult (σ : Type) where
  done : Bool
  result : String
  nextState : Option σ

/-- A Flow over an abstract execution-state type. -/
structure Flow (σ : Type) where
  execute : σ → Eff (FlowIntermediateResult σ)

/-- FlowWrap: an Effect that produces a Flow (a flow builder). -/
def FlowWrap (σ : Type) : Type := Eff (Flow σ)

/-- The Flow value built by first: run the action once with empty
arguments and pass the incoming state through untouched. -/
def firstFlow {σ : Type} (step : Action) : Flow σ :=
  { execute := fun executionState =>
      (step.handle []).bind fun result =>
        Eff.pure { done := result.done, result := result.result
                   nextState := some executionState } }

/-- first: converts an action into the flow ecosystem. -/
def first {σ : Type} (step : Action) : FlowWrap σ :=
  Eff.pure (firstFlow step)

/-- The Flow value built by andThen on top of an already resolved previous
Flow: run the previous Flow; if its result is done, return it unchanged,
otherwise run the next action and pair its outcome with the previous
nextState. -/
def andThenFlow {σ : Type} (step : Action) (prevFlow : Flow σ) : Flow σ :=
  { execute := fun executionState =>
      (prevFlow.execute executionState).bind fun prevResult =>
        if prevResult.done then
          Eff.pure prevResult
        else
          (step.handle []).bind fun result =>
            Eff.pure { done := result.done, result := result.result
                       nextState := prevResult.nextState } }

/-- andThen: sequential composition of a flow builder with one more
action. -/
def andThen {σ : Type} (step : Action) (previousFlow : FlowWrap σ) : FlowWrap σ :=
  previousFlow.bind fun prevFlow => Eff.pure (andThenFlow step prevFlow)

/-- doIf: resolve the previous builder, consult the decision provider for
the condition, and continue composition with the chosen branch builder
transformer.  The condition string is unused by the source (parameter
named underscore condition there). -/
def doIf {σ : Type} (_condition : String)
    (onTrue : FlowWrap σ → FlowWrap σ)
    (onFalse : FlowWrap σ → FlowWrap σ)
    (previousFlow : FlowWrap σ) : FlowWrap σ :=
  previousFlow.bind fun prevFlow =>
    nextBool.bind fun conditionMet =>
      if conditionMet then onTrue (Eff.pure prevFlow)
      else onFalse (Eff.pure prevFlow)

/-- noOp: identity on flow builders. -/
def noOp {σ : Type} (flow : FlowWrap σ) : FlowWrap σ := flow

/-- Resolve a flow builder and execute the resulting Flow from a given
state (this is how every consumer of a builder runs it). -/
def runFlow {σ : Type} (w : FlowWrap σ) (st : σ) : Eff (FlowIntermediateResult σ) :=
  w.bind fun f => f.execute st

-- ===== Workflow =====

/-- Model of a Workflow. -/
structure Workflow where
  name : String
  description : String
  execute : Eff ActionReturn

/-- createWorkflow: resolve the flow, run it from the empty record, and
keep only done and result. -/
def createWorkflow (name description : String) (flow : FlowWrap Args) : Workflow :=
  { name := name
    description := description
    execute :=
      (flow.bind fun f => f.execute []).bind fun result =>
        Eff.pure { done := result.done, result := result.result } }

-- ===== Agent =====

/-- Model of an Agent: execute takes the optional maxLoops option. -/
structure Agent where
  name : String
  description : String
  execute : Option Nat → Eff ActionReturn

/-- Configuration record accepted by createAgent; the three capability
lists are optional exactly as in the source. -/
structure AgentConfig where
  name : String
  description : String
  actions : Option (List Action)
  workflows : Option (List Workflow)
  agents : Option (List Agent)

/-- The typed capability union built inside the agent loop. -/
inductive Capability where
  | action (value : Action)
  | workflow (value : Workflow)
  | agent (value : Agent)

/-- The candidate list of one loop iteration: actions, then workflows,
then agents, in declared order. -/
def capabilitiesList (cfg : AgentConfig) : List Capability :=
  ((cfg.actions.getD []).map .action)
    ++ ((cfg.workflows.getD []).map .workflow)
    ++ ((cfg.agents.getD []).map .agent)

/-- Dispatch on the selected capability: record the trace message and run
it; a sub-agent is always run with the fixed budget of five loops. -/
def runCapability (c : Capability) : Eff ActionReturn :=
  match c with
  | .action a =>
      (addMessage ("Executing action: " ++ a.name)).bind fun _ => a.handle []
  | .workflow w =>
      (addMessage ("Executing workflow: " ++ w.name)).bind fun _ => w.execute
  | .agent ag =>
      (addMessage ("Delegating to sub-agent: " ++ ag.name)).bind fun _ =>
        ag.execute (some 5)

/-- The while loop of createAgent.  The source iterates while
loopCount < maxLoops; here the remaining iteration count
maxLoops - loopCount is carried as an explicit structurally decreasing
argument (fuel), so fuel = 0 is exactly the loop exit. -/
def agentLoop (cfg : AgentConfig) (maxLoops : Nat) : Nat → Nat → Eff ActionReturn
  | _loopCount, 0 =>
      (addMessage ("Agent reached max loops (" ++ toString maxLoops ++ ")")).bind
        fun _ =>
          Eff.pure { done := true
                     result := "Agent reached maximum loops (" ++ toString maxLoops ++ ")" }
  | loopCount, fuel + 1 =>
      (addMessage ("Agent loop " ++ toString (loopCount + 1) ++ "/"
          ++ toString maxLoops)).bind fun _ =>
        let capabilities := capabilitiesList cfg
        if capabilities.length = 0 then
          Eff.pure { done := true, result := "No capabilities available" }
        else
          nextNat.bind fun selectionIndex =>
            match capabilities.get? selectionIndex with
            | none =>
                Eff.die ("Impossible: index " ++ toString selectionIndex
                  ++ " out of bounds for array of length "
                  ++ toString capabilities.length)
            | some capability =>
                (runCapability capability).bind fun result =>
                  if result.done then
                    (addMessage ("Completed with result: " ++ result.result)).bind
                      fun _ => Eff.pure result
                  else
                    agentLoop cfg maxLoops (loopCount + 1) fuel

/-- createAgent: record the start message, default the loop budget to ten,
and enter the loop at loopCount zero. -/
def createAgent (cfg : AgentConfig) : Agent :=
  { name := cfg.name
    description := cfg.description
    execute := fun options =>
      (addMessage ("Starting agent: " ++ cfg.name)).bind fun _ =>
        agentLoop cfg (options.getD 10) 0 (options.getD 10) }

-- ===== Basic run lemmas for the effect model =====

theorem Eff.pure_apply {α : Type} (a : α) (s : EffState) :
    Eff.pure a s = (.ok a, s) := rfl

theorem Eff.bind_ok {α β : Type} {e : Eff α} {f : α → Eff β} {s s₁ : EffState}
    {a : α} (h : e s = (.ok a, s₁)) : e.bind f s = f a s₁ := by
  unfold Eff.bind
  rw [h]

theorem Eff.bind_error {α β : Type} {e : Eff α} {f : α → Eff β} {s s₁ : EffState}
    {err : AgentError} (h : e s = (.error err, s₁)) :
    e.bind f s = (.error err, s₁) := by
  unfold Eff.bind
  rw [h]

theorem Eff.bind_defect {α β : Type} {e : Eff α} {f : α → Eff β} {s s₁ : EffState}
    {m : String} (h : e s = (.defect m, s₁)) :
    e.bind f s = (.defect m, s₁) := by
  unfold Eff.bind
  rw [h]

-- ===== Shared sample values used to exercise the theorems =====

/-- A sample decision provider: condition evaluations alternate between
true and false, capability selection always picks index zero. -/
def sampleOracle : DecisionOracle :=
  { bools := fun k => k % 2 == 0, nats := fun _ => 0 }

/-- A sample initial run state with empty store. -/
def sampleState : EffState :=
  { store := { conversationHistory := [], executionState := [] }
    oracle := sampleOracle, boolCalls := 0, natCalls := 0 }

/-- A concrete resolved Flow that always finishes with done = true. -/
def doneFlow : Flow Args :=
  { execute := fun st =>
      Eff.pure { done := true, result := "hi", nextState := some st } }

/-- A concrete stub Action with a trivially succeeding schema whose run
never finishes the flow. -/
def stubAction : Action :=
  createAction
    { name := "Stub", description := "a stub"
      Params := fun args => .ok args
      execute := fun _ => Eff.pure { done := false, result := "stub ran" } }

-- ===== C1: andThen short-circuits on done =====

/-- C1: for every flow built with andThen and every state, if the upstream
flow resolves (first conjunct: andThen adds no effect of its own to the
resolution) and its execute returns a result with done = true, then the
composed flow returns that upstream result completely unchanged (same
done, result and nextState) in the unchanged run state, so the downstream
Action (universally quantified and absent from the conclusion) is never
invoked. -/
theorem andThen_short_circuits {σ : Type} (step : Action)
    (prevWrap : FlowWrap σ) (s₀ s₁ : EffState) (F : Flow σ)
    (hw : prevWrap s₀ = (.ok F, s₁))
    (st : σ) (s : EffState) (r : FlowIntermediateResult σ) (s' : EffState)
    (hprev : F.execute st s = (.ok r, s'))
    (hdone : r.done = true) :
    andThen step prevWrap s₀ = (.ok (andThenFlow step F), s₁)
      ∧ (andThenFlow step F).execute st s = (.ok r, s') := by
  constructor
  · show Eff.bind prevWrap _ s₀ = _
    rw [Eff.bind_ok hw]
    rfl
  · show Eff.bind (F.execute st) _ s = _
    rw [Eff.bind_ok hprev]
    show (if r.done then Eff.pure r else _) s' = _
    rw [hdone]
    rfl

/-- Witness for C1 at a concrete upstream flow that reports done. -/
theorem andThen_short_circuits_witness :
    andThen stubAction (Eff.pure doneFlow) sampleState
        = (.ok (andThenFlow stubAction doneFlow), sampleState)
      ∧ (andThenFlow stubAction doneFlow).execute [] sampleState
        = (.ok { done := true, result := "hi", nextState := some [] },
           sampleState) :=
  andThen_short_circuits stubAction (Eff.pure doneFlow) sampleState sampleState
    doneFlow rfl [] sampleState
    { done := true, result := "hi", nextState := some [] } sampleState rfl rfl

-- ===== C5: validation failure never invokes the run function =====

/-- C5: for every Action built with createAction, if the raw argument map
fails to decode against the parameter schema, handle returns that failure
as a ParseError with the run state untouched, and the configured execute
function is never invoked: the outcome is the same for every substitute
execute function. -/
theorem createAction_parse_failure (config : ActionConfig) (args : Args)
    (msg : String) (hdec : config.Params args = .error msg) (s : EffState) :
    (createAction config).handle args s = (.error (.parseError msg), s)
      ∧ ∀ exec2 : Args → Eff ActionReturn,
          (createAction { config with execute := exec2 }).handle args s
            = (.error (.parseError msg), s) := by
  constructor
  · show Eff.bind (decodeParams (config.Params args)) _ s = _
    rw [hdec]
    rfl
  · intro exec2
    show Eff.bind (decodeParams (config.Params args)) _ s = _
    rw [hdec]
    rfl

/-- A concrete Action configuration whose schema requires a field named
response. -/
def missingFieldConfig : ActionConfig :=
  { name := "Respond", description := "Responds to the user"
    Params := fun args =>
      match args.find? (fun kv => kv.1 == "response") with
      | some _ => .ok args
      | none => .error "missing required field response"
    execute := fun _ => Eff.pure { done := true, result := "ok" } }

/-- Witness for C5: calling the concrete Action with an empty argument map
yields ParseError without running execute. -/
theorem createAction_parse_failure_witness :
    (createAction missingFieldConfig).handle [] sampleState
        = (.error (.parseError "missing required field response"), sampleState)
      ∧ (createAction { missingFieldConfig with
            execute := fun _ => Eff.pure { done := false, result := "other" } }).handle
          [] sampleState
        = (.error (.parseError "missing required field response"), sampleState) :=
  ⟨(createAction_parse_failure missingFieldConfig [] _ rfl sampleState).1,
   (createAction_parse_failure missingFieldConfig [] _ rfl sampleState).2 _⟩

-- ===== C6: getHistory is a live view, not a snapshot =====

/-- Read the history through a getHistory reference, append a message,
then read through the same reference again. -/
def historyProbe : Eff (List String × List String) :=
  getHistory.bind fun h =>
    (h.view).bind fun before =>
      (addMessage "later message").bind fun _ =>
        (h.view).bind fun after => Eff.pure (before, after)

/-- Counterexample to C6 as stated: starting from the empty store, the
sequence obtained from getHistory reads as the empty list, and after one
appendMessage the very same returned reference reads as a one-element
list — the appendMessage performed after the getHistory call did change
the sequence getHistory previously returned, so it is not a snapshot. -/
theorem getHistory_not_snapshot :
    historyProbe sampleState
        = (.ok ([], ["later message"]),
           { sampleState with store :=
              { conversationHistory := ["later message"], executionState := [] } })
      ∧ ([] : List String) ≠ ["later message"] :=
  ⟨rfl, by decide⟩

/-- C6 amended: getHistory returns the live history array of the service
closure, not a snapshot: for every state and message, an appendMessage
performed after a getHistory call is visible through the previously
returned reference, which then reads as the old history with the new
message appended. -/
theorem getHistory_live_view (s : EffState) (m : String) :
    (getHistory.bind fun h => (addMessage m).bind fun _ => h.view) s
      = (.ok (s.store.conversationHistory ++ [m]),
         { s with store := appendHistory m s.store }) := rfl

-- ===== doIf semantics =====

/-- Resolving a doIf-built flow consults the decision provider at the
current consultation index, advances that index, and continues with the
branch the provider chose.  Shared by the doIf theorems below. -/
theorem doIf_run {σ : Type} (cond : String)
    (tT tF : FlowWrap σ → FlowWrap σ) (prevWrap : FlowWrap σ)
    (s₀ s₁ : EffState) (F : Flow σ) (hw : prevWrap s₀ = (.ok F, s₁)) :
    doIf cond tT tF prevWrap s₀
      = (if s₁.oracle.bools s₁.boolCalls = true
         then tT (Eff.pure F) else tF (Eff.pure F))
          { s₁ with boolCalls := s₁.boolCalls + 1 } := by
  show Eff.bind prevWrap _ s₀ = _
  rw [Eff.bind_ok hw]
  show Eff.bind nextBool _ s₁ = _
  rw [Eff.bind_ok (show nextBool s₁
    = (.ok (s₁.oracle.bools s₁.boolCalls),
       { s₁ with boolCalls := s₁.boolCalls + 1 }) from rfl)]

-- ===== C7: the doIf decision is consulted anew on every execution =====

/-- An action that never completes, used as the flow head. -/
def actZero : Action :=
  createAction
    { name := "Zero", description := "head step"
      Params := fun args => .ok args
      execute := fun _ => Eff.pure { done := false, result := "zero" } }

/-- Branch marker action for the true branch. -/
def actTrue : Action :=
  createAction
    { name := "True branch", description := "true marker"
      Params := fun args => .ok args
      execute := fun _ => Eff.pure { done := false, result := "true branch" } }

/-- Branch marker action for the false branch. -/
def actFalse : Action :=
  createAction
    { name := "False branch", description := "false marker"
      Params := fun args => .ok args
      execute := fun _ => Eff.pure { done := false, result := "false branch" } }

/-- A concrete doIf-built flow whose two branches append distinguishable
marker actions. -/
def branchProbe : FlowWrap Args :=
  doIf "the condition holds"
    (fun w => andThen actTrue w) (fun w => andThen actFalse w)
    (first actZero)

/-- C7: the branch decision of a doIf-built flow is taken afresh on every
execution of that flow.  First conjunct: every run of the built flow
consults the decision provider at the current consultation index and
advances that index, so no boolean outcome is carried over from one run
to the next.  Remaining conjuncts: concretely, executing the very same
doIf-built flow value twice in a row under the alternating sample
provider takes the true branch on the first run and the false branch on
the second — the first outcome was not cached. -/
theorem doIf_decision_reevaluated {σ : Type} (cond : String)
    (tT tF : FlowWrap σ → FlowWrap σ) (prevWrap : FlowWrap σ)
    (s₀ s₁ : EffState) (F : Flow σ) (hw : prevWrap s₀ = (.ok F, s₁)) :
    (doIf cond tT tF prevWrap s₀
      = (if s₁.oracle.bools s₁.boolCalls = true
         then tT (Eff.pure F) else tF (Eff.pure F))
          { s₁ with boolCalls := s₁.boolCalls + 1 })
    ∧ (runFlow branchProbe [] sampleState).1
        = .ok { done := false, result := "true branch", nextState := some [] }
    ∧ (runFlow branchProbe [] ((runFlow branchProbe [] sampleState).2)).1
        = .ok { done := false, result := "false branch", nextState := some [] } :=
  ⟨doIf_run cond tT tF prevWrap s₀ s₁ F hw, rfl, rfl⟩

/-- Witness for C7 at a concrete previous flow. -/
theorem doIf_decision_reevaluated_witness :
    (doIf "c" noOp noOp (Eff.pure doneFlow) sampleState
      = (if sampleState.oracle.bools sampleState.boolCalls = true
         then noOp (Eff.pure doneFlow) else noOp (Eff.pure doneFlow))
          { sampleState with boolCalls := sampleState.boolCalls + 1 })
    ∧ (runFlow branchProbe [] sampleState).1
        = .ok { done := false, result := "true branch", nextState := some [] }
    ∧ (runFlow branchProbe [] ((runFlow branchProbe [] sampleState).2)).1
        = .ok { done := false, result := "false branch", nextState := some [] } :=
  doIf_decision_reevaluated "c" noOp noOp (Eff.pure doneFlow)
    sampleState sampleState doneFlow rfl

-- ===== C8: doIf with two noOp branches is an identity =====

/-- An effect is counter neutral when its outcome and store effect do not
depend on the consultation counters and it leaves them unchanged.  Every
effect expressible in the source has this property with respect to the
counters, because the counters only model how many times the Math.random
stand-in has been sampled, which no source flow can observe. -/
def CounterNeutral {α : Type} (e : Eff α) : Prop :=
  ∀ (s : EffState) (nb nn : Nat),
    e { s with boolCalls := nb, natCalls := nn }
      = ((e s).1, { (e s).2 with boolCalls := nb, natCalls := nn })

/-- C8: doIf with onTrue and onFalse both noOp is an identity for flow
composition: applied to any counter-neutral flow builder, for either
provider answer (the statement holds for every provider stream), running
the resulting flow produces the same outcome (same done, result and
nextState on success, same error on failure) and the same store as
running the unmodified builder. -/
theorem doIf_noOp_identity {σ : Type} (cond : String) (prevWrap : FlowWrap σ)
    (hf : ∀ (s : EffState) (F : Flow σ) (s₁ : EffState),
      prevWrap s = (.ok F, s₁) → ∀ st : σ, CounterNeutral (F.execute st))
    (st : σ) (s : EffState) :
    (runFlow (doIf cond noOp noOp prevWrap) st s).1
        = (runFlow prevWrap st s).1
      ∧ (runFlow (doIf cond noOp noOp prevWrap) st s).2.store
        = (runFlow prevWrap st s).2.store := by
  cases hres : prevWrap s with
  | mk r s₁ =>
    cases r with
    | ok F =>
      have hd : doIf cond noOp noOp prevWrap s
          = (.ok F, { s₁ with boolCalls := s₁.boolCalls + 1, natCalls := s₁.natCalls }) := by
        show Eff.bind prevWrap _ s = _
        rw [Eff.bind_ok hres]
        show Eff.bind nextBool _ s₁ = _
        rw [Eff.bind_ok (show nextBool s₁
          = (.ok (s₁.oracle.bools s₁.boolCalls),
             { s₁ with boolCalls := s₁.boolCalls + 1, natCalls := s₁.natCalls }) from rfl)]
        show (if (s₁.oracle.bools s₁.boolCalls) = true
          then noOp (Eff.pure F) else noOp (Eff.pure F)) _ = _
        rw [ite_self]
        rfl
      have e1 : runFlow (doIf cond noOp noOp prevWrap) st s
          = F.execute st { s₁ with boolCalls := s₁.boolCalls + 1, natCalls := s₁.natCalls } := by
        show Eff.bind _ _ s = _
        rw [Eff.bind_ok hd]
      have e2 : runFlow prevWrap st s = F.execute st s₁ := by
        show Eff.bind _ _ s = _
        rw [Eff.bind_ok hres]
      rw [e1, e2, hf s F s₁ hres st s₁ (s₁.boolCalls + 1) s₁.natCalls]
      exact ⟨rfl, rfl⟩
    | error err =>
      have hd : doIf cond noOp noOp prevWrap s = (.error err, s₁) := by
        show Eff.bind prevWrap _ s = _
        rw [Eff.bind_error hres]
      have e1 : runFlow (doIf cond noOp noOp prevWrap) st s = (.error err, s₁) := by
        show Eff.bind _ _ s = _
        rw [Eff.bind_error hd]
      have e2 : runFlow prevWrap st s = (.error err, s₁) := by
        show Eff.bind _ _ s = _
        rw [Eff.bind_error hres]
      rw [e1, e2]
      exact ⟨rfl, rfl⟩
    | defect m =>
      have hd : doIf cond noOp noOp prevWrap s = (.defect m, s₁) := by
        show Eff.bind prevWrap _ s = _
        rw [Eff.bind_defect hres]
      have e1 : runFlow (doIf cond noOp noOp prevWrap) st s = (.defect m, s₁) := by
        show Eff.bind _ _ s = _
        rw [Eff.bind_defect hd]
      have e2 : runFlow prevWrap st s = (.defect m, s₁) := by
        show Eff.bind _ _ s = _
        rw [Eff.bind_defect hres]
      rw [e1, e2]
      exact ⟨rfl, rfl⟩

/-- Witness for C8 at a concrete counter-neutral builder. -/
theorem doIf_noOp_identity_witness :
    (runFlow (doIf "c" noOp noOp (first stubAction)) ([] : Args) sampleState).1
        = (runFlow (first stubAction : FlowWrap Args) [] sampleState).1
      ∧ (runFlow (doIf "c" noOp noOp (first stubAction)) ([] : Args) sampleState).2.store
        = (runFlow (first stubAction : FlowWrap Args) [] sampleState).2.store :=
  doIf_noOp_identity "c" (first stubAction)
    (by
      intro s F s₁ h st
      injection h with h1 h2
      injection h1 with h3
      subst h3
      intro s2 nb nn
      rfl)
    [] sampleState

-- ===== Agent loop: every successful outcome is done =====

/-- Every successful outcome of the agent loop carries done = true: the
loop only returns a dispatched result after checking its done flag, and
both synthetic results (no capabilities, budget exhausted) are built with
done = true. -/
theorem agentLoop_ok_done (cfg : AgentConfig) (m : Nat) :
    ∀ (fuel lc : Nat) (s : EffState) (r : ActionReturn) (s' : EffState),
      agentLoop cfg m lc fuel s = (.ok r, s') → r.done = true := by
  intro fuel
  induction fuel with
  | zero =>
    intro lc s r s' h
    simp only [agentLoop, Eff.bind, addMessage, Eff.pure, Prod.mk.injEq,
      RunResult.ok.injEq] at h
    obtain ⟨h1, _⟩ := h
    subst h1
    rfl
  | succ fuel ih =>
    intro lc s r s' h
    simp only [agentLoop, Eff.bind, addMessage, Eff.pure, nextNat, Eff.die] at h
    split at h
    · injection h with h1 h2
      injection h1 with h3
      subst h3
      rfl
    · simp only [Eff.bind, nextNat] at h
      cases hget : (capabilitiesList cfg).get? (s.oracle.nats s.natCalls) with
      | none =>
        rw [hget] at h
        simp [Eff.die] at h
      | some cap =>
        rw [hget] at h
        simp only [] at h
        cases hrc : runCapability cap
            { store := appendHistory
                ("Agent loop " ++ toString (lc + 1) ++ "/" ++ toString m) s.store
              oracle := s.oracle, boolCalls := s.boolCalls
              natCalls := s.natCalls + 1 } with
        | mk res s4 =>
          cases res with
          | ok a =>
            rw [Eff.bind_ok hrc] at h
            by_cases hdone : a.done = true
            · rw [if_pos hdone] at h
              injection h with h1 h2
              injection h1 with h3
              subst h3
              exact hdone
            · rw [if_neg hdone] at h
              exact ih _ _ _ _ h
          | error e =>
            rw [Eff.bind_error hrc] at h
            simp at h
          | defect dm =>
            rw [Eff.bind_defect hrc] at h
            simp at h

-- ===== C2: done is monotone upward through every component =====

/-- An action that completes immediately, used to exercise the theorems. -/
def doneAction : Action :=
  createAction
    { name := "Done", description := "finishes"
      Params := fun args => .ok args
      execute := fun _ => Eff.pure { done := true, result := "done!" } }

/-- An agent configuration with no capabilities at all. -/
def emptyAgentConfig : AgentConfig :=
  { name := "Empty", description := "no capabilities"
    actions := some [], workflows := some [], agents := some [] }

/-- C2: ActionReturn.done is monotone upward through every component: a
flow built by first copies the done flag of its action; a flow built by
andThen returns a done upstream result unchanged and copies the done flag
of the downstream action otherwise; doIf returns the executed branch
result unchanged; a Workflow copies the done flag of its flow result; and
every successful Agent result has done = true.  In particular no
component ever turns a done = true inner result into done = false. -/
theorem done_monotone_upward :
    (∀ (σ : Type) (step : Action) (st : σ) (s : EffState) (ar : ActionReturn)
        (s' : EffState), step.handle [] s = (.ok ar, s') → ar.done = true →
        (firstFlow step (σ := σ)).execute st s
          = (.ok { done := true, result := ar.result, nextState := some st }, s'))
  ∧ (∀ (σ : Type) (step : Action) (F : Flow σ) (st : σ) (s : EffState)
        (r : FlowIntermediateResult σ) (s' : EffState),
        F.execute st s = (.ok r, s') → r.done = true →
        (andThenFlow step F).execute st s = (.ok r, s'))
  ∧ (∀ (σ : Type) (step : Action) (F : Flow σ) (st : σ) (s : EffState)
        (r : FlowIntermediateResult σ) (s₁ : EffState) (ar : ActionReturn)
        (s₂ : EffState),
        F.execute st s = (.ok r, s₁) → r.done = false →
        step.handle [] s₁ = (.ok ar, s₂) → ar.done = true →
        (andThenFlow step F).execute st s
          = (.ok { done := true, result := ar.result, nextState := r.nextState }, s₂))
  ∧ (∀ (σ : Type) (cond : String) (tT tF : FlowWrap σ → FlowWrap σ)
        (prevWrap : FlowWrap σ) (s₀ s₁ : EffState) (F : Flow σ) (st : σ),
        prevWrap s₀ = (.ok F, s₁) →
        runFlow (doIf cond tT tF prevWrap) st s₀
          = runFlow (if s₁.oracle.bools s₁.boolCalls = true
                     then tT (Eff.pure F) else tF (Eff.pure F)) st
              { s₁ with boolCalls := s₁.boolCalls + 1 })
  ∧ (∀ (nm ds : String) (flow : FlowWrap Args) (s : EffState) (F : Flow Args)
        (s₁ : EffState) (r : FlowIntermediateResult Args) (s₂ : EffState),
        flow s = (.ok F, s₁) → F.execute [] s₁ = (.ok r, s₂) → r.done = true →
        (createWorkflow nm ds flow).execute s
          = (.ok { done := true, result := r.result }, s₂))
  ∧ (∀ (cfg : AgentConfig) (opts : Option Nat) (s : EffState)
        (r : ActionReturn) (s' : EffState),
        (createAgent cfg).execute opts s = (.ok r, s') → r.done = true) := by
  refine ⟨?_, ?_, ?_, ?_, ?_, ?_⟩
  · intro σ step st s ar s' h hdone
    show Eff.bind (step.handle []) _ s = _
    rw [Eff.bind_ok h]
    simp only [Eff.pure, hdone]
  · intro σ step F st s r s' h hdone
    show Eff.bind (F.execute st) _ s = _
    rw [Eff.bind_ok h]
    show (if r.done then Eff.pure r else _) s' = _
    rw [hdone]
    rfl
  · intro σ step F st s r s₁ ar s₂ h1 hfalse h2 hdone
    show Eff.bind (F.execute st) _ s = _
    rw [Eff.bind_ok h1]
    show (if r.done then Eff.pure r else Eff.bind (step.handle []) _) s₁ = _
    rw [if_neg (show ¬ r.done = true by simp [hfalse])]
    rw [Eff.bind_ok h2]
    simp only [Eff.pure, hdone]
  · intro σ cond tT tF prevWrap s₀ s₁ F st hw
    show Eff.bind (doIf cond tT tF prevWrap) _ s₀ = Eff.bind _ _ _
    unfold Eff.bind
    rw [doIf_run cond tT tF prevWrap s₀ s₁ F hw]
  · intro nm ds flow s F s₁ r s₂ hflow hF hdone
    have hinner : Eff.bind flow (fun f => f.execute []) s = (.ok r, s₂) := by
      rw [Eff.bind_ok hflow]
      exact hF
    show Eff.bind (Eff.bind flow fun f => f.execute []) _ s = _
    rw [Eff.bind_ok hinner]
    simp only [Eff.pure, hdone]
  · intro cfg opts s r s' h
    exact agentLoop_ok_done cfg (opts.getD 10) (opts.getD 10) 0 _ r s' h

/-- Witness for C2: one concrete instance of every conjunct. -/
theorem done_monotone_upward_witness :
    ((firstFlow doneAction (σ := Args)).execute [] sampleState
        = (.ok { done := true, result := "done!", nextState := some [] },
           sampleState))
  ∧ ((andThenFlow stubAction doneFlow).execute ([] : Args) sampleState
        = (.ok { done := true, result := "hi", nextState := some [] },
           sampleState))
  ∧ ((andThenFlow doneAction (firstFlow actZero)).execute ([] : Args) sampleState
        = (.ok { done := true, result := "done!", nextState := some [] },
           sampleState))
  ∧ (runFlow (doIf "c" noOp noOp (Eff.pure doneFlow)) ([] : Args) sampleState
        = runFlow (if sampleState.oracle.bools sampleState.boolCalls = true
                   then noOp (Eff.pure doneFlow) else noOp (Eff.pure doneFlow))
            [] { sampleState with boolCalls := sampleState.boolCalls + 1 })
  ∧ ((createWorkflow "W" "demo" (Eff.pure doneFlow)).execute sampleState
        = (.ok { done := true, result := "hi" }, sampleState))
  ∧ (ActionReturn.mk true "No capabilities available").done = true :=
  ⟨done_monotone_upward.1 Args doneAction [] sampleState
      { done := true, result := "done!" } sampleState rfl rfl,
   done_monotone_upward.2.1 Args stubAction doneFlow [] sampleState
      { done := true, result := "hi", nextState := some [] } sampleState rfl rfl,
   done_monotone_upward.2.2.1 Args doneAction (firstFlow actZero) [] sampleState
      { done := false, result := "zero", nextState := some [] } sampleState
      { done := true, result := "done!" } sampleState rfl rfl rfl rfl,
   done_monotone_upward.2.2.2.1 Args "c" noOp noOp (Eff.pure doneFlow)
      sampleState sampleState doneFlow [] rfl,
   done_monotone_upward.2.2.2.2.1 "W" "demo" (Eff.pure doneFlow) sampleState
      doneFlow sampleState { done := true, result := "hi", nextState := some [] }
      sampleState rfl rfl rfl,
   done_monotone_upward.2.2.2.2.2 emptyAgentConfig (some 1) sampleState
      { done := true, result := "No capabilities available" } _ rfl⟩

-- ===== C9: Agent.execute never succeeds with done = false =====

/-- C9: every successful result of an Agent built with createAgent has
done = true, for every configuration, option value and starting state:
the empty-capability result, the budget-exhausted result, and every
dispatched-capability return path all carry done = true.  Consequently a
parent agent that dispatches to a sub-agent treats the sub-agent either
as completed (done = true stops the parent loop) or as failed, never as a
pending done = false step. -/
theorem agent_success_done (cfg : AgentConfig) (opts : Option Nat)
    (s : EffState) (r : ActionReturn) (s' : EffState)
    (h : (createAgent cfg).execute opts s = (.ok r, s')) : r.done = true :=
  agentLoop_ok_done cfg (opts.getD 10) (opts.getD 10) 0 _ r s' h

/-- Witness for C9 at the empty-capability agent. -/
theorem agent_success_done_witness :
    ((createAgent emptyAgentConfig).execute (some 1) sampleState
        = (.ok { done := true, result := "No capabilities available" },
           { sampleState with store :=
              { conversationHistory := ["Starting agent: Empty", "Agent loop 1/1"]
                executionState := [] } }))
    ∧ (ActionReturn.mk true "No capabilities available").done = true :=
  ⟨rfl, agent_success_done emptyAgentConfig (some 1) sampleState _ _ rfl⟩

-- ===== C3: the loop budget is exhausted normally =====

/-- Store transformation of a whole agent run over a single Action that
never completes: per remaining iteration, the loop trace message and the
action trace message are appended and the store effect of the action is
applied exactly once; at fuel zero the budget trace message is appended. -/
def singleActionStore (step : AgentState → AgentState) (aname : String)
    (maxLoops : Nat) : Nat → Nat → AgentState → AgentState
  | _lc, 0, st =>
      appendHistory ("Agent reached max loops (" ++ toString maxLoops ++ ")") st
  | lc, fuel + 1, st =>
      singleActionStore step aname maxLoops (lc + 1) fuel
        (step (appendHistory ("Executing action: " ++ aname)
          (appendHistory ("Agent loop " ++ toString (lc + 1) ++ "/"
            ++ toString maxLoops) st)))

/-- Run of the agent loop over a single always-pending Action: every
iteration selects that action (the provider picks index zero), runs it
once, and continues; after the fuel is spent the loop ends successfully
with the budget-exhausted result.  The final store applies the action
store effect exactly once per iteration, and the selection counter
advances exactly once per iteration. -/
theorem agentLoop_single_action
    (a : Action) (res : EffState → String) (step : AgentState → AgentState)
    (ha : ∀ s : EffState, a.handle [] s
      = (.ok { done := false, result := res s }, { s with store := step s.store }))
    (cfg : AgentConfig) (hcfg : capabilitiesList cfg = [.action a]) (m : Nat) :
    ∀ (fuel lc : Nat) (s : EffState), (∀ k, s.oracle.nats k = 0) →
      agentLoop cfg m lc fuel s
        = (.ok { done := true
                 result := "Agent reached maximum loops (" ++ toString m ++ ")" },
           { s with store := singleActionStore step a.name m lc fuel s.store
                    natCalls := s.natCalls + fuel }) := by
  intro fuel
  induction fuel with
  | zero =>
    intro lc s hnat
    rfl
  | succ fuel ih =>
    intro lc s hnat
    simp only [agentLoop, Eff.bind, addMessage, Eff.pure, nextNat, hcfg,
      runCapability, ha, singleActionStore]
    rw [if_neg (by simp)]
    simp only [Eff.bind, nextNat, hnat, List.get?, Eff.pure, addMessage, ha]
    rw [if_neg (by simp)]
    rw [ih (lc + 1)
      { store := step (appendHistory ("Executing action: " ++ a.name)
          (appendHistory ("Agent loop " ++ toString (lc + 1) ++ "/"
            ++ toString m) s.store))
        oracle := s.oracle, boolCalls := s.boolCalls
        natCalls := s.natCalls + 1 }
      (fun k => hnat k)]
    congr 2
    show s.natCalls + 1 + fuel = s.natCalls + (fuel + 1)
    omega

/-- C3: for every loop budget N of at least one, an agent whose single
capability is one Action that always succeeds with done = false (with an
arbitrary per-call result string res and store effect step) runs that
Action exactly N times — the final store applies step once per iteration,
as recorded by singleActionStore — and then terminates successfully (an
ok outcome: no error, no defect) with the synthetic budget-exhausted
result. -/
theorem agent_budget_exhausted
    (a : Action) (res : EffState → String) (step : AgentState → AgentState)
    (ha : ∀ s : EffState, a.handle [] s
      = (.ok { done := false, result := res s }, { s with store := step s.store }))
    (nm ds : String) (N : Nat) (_hN : 1 ≤ N) (s₀ : EffState)
    (hnat : ∀ k, s₀.oracle.nats k = 0) :
    (createAgent { name := nm, description := ds, actions := some [a]
                   workflows := some [], agents := some [] }).execute (some N) s₀
      = (.ok { done := true
               result := "Agent reached maximum loops (" ++ toString N ++ ")" },
         { s₀ with store := singleActionStore step a.name N 0 N
                              (appendHistory ("Starting agent: " ++ nm) s₀.store)
                   natCalls := s₀.natCalls + N }) :=
  agentLoop_single_action a res step ha
    { name := nm, description := ds, actions := some [a]
      workflows := some [], agents := some [] } rfl N N 0
    { s₀ with store := appendHistory ("Starting agent: " ++ nm) s₀.store }
    (fun k => hnat k)

/-- A concrete Action that always reports done = false and leaves the run
state untouched. -/
def loopingAction : Action :=
  createAction
    { name := "KeepGoing", description := "never finishes"
      Params := fun args => .ok args
      execute := fun _ => Eff.pure { done := false, result := "working" } }

/-- Witness for C3 with budget two. -/
theorem agent_budget_exhausted_witness :
    (createAgent { name := "Solo", description := "single action"
                   actions := some [loopingAction], workflows := some []
                   agents := some [] }).execute (some 2) sampleState
      = (.ok { done := true
               result := "Agent reached maximum loops (" ++ toString 2 ++ ")" },
         { sampleState with
             store := singleActionStore id loopingAction.name 2 0 2
               (appendHistory ("Starting agent: " ++ "Solo") sampleState.store)
             natCalls := sampleState.natCalls + 2 }) :=
  agent_budget_exhausted loopingAction (fun _ => "working") id (fun _ => rfl)
    "Solo" "single action" 2 (by decide) sampleState (fun _ => rfl)

-- ===== C10: pending capability results are discarded =====

/-- The fixed list of trace messages the agent loop itself appends while
it keeps looping over a single pending action: one loop message and one
dispatch message per iteration, then the budget message.  The list is
built from the agent and action names and the loop counters only. -/
def singleActionTraces (aname : String) (maxLoops : Nat) : Nat → Nat → List String
  | _lc, 0 => ["Agent reached max loops (" ++ toString maxLoops ++ ")"]
  | lc, fuel + 1 =>
      ("Agent loop " ++ toString (lc + 1) ++ "/" ++ toString maxLoops)
        :: ("Executing action: " ++ aname)
        :: singleActionTraces aname maxLoops (lc + 1) fuel

/-- With a store-neutral action, the whole store effect of the loop is exactly
the appending of the fixed trace messages; the execution context is left
untouched. -/
theorem singleActionStore_id (aname : String) (m : Nat) :
    ∀ (fuel lc : Nat) (st : AgentState),
      singleActionStore id aname m lc fuel st
        = { st with conversationHistory :=
              st.conversationHistory ++ singleActionTraces aname m lc fuel } := by
  intro fuel
  induction fuel with
  | zero =>
    intro lc st
    rfl
  | succ fuel ih =>
    intro lc st
    show singleActionStore id aname m (lc + 1) fuel
        (id (appendHistory ("Executing action: " ++ aname)
          (appendHistory ("Agent loop " ++ toString (lc + 1) ++ "/"
            ++ toString m) st))) = _
    rw [ih]
    simp [appendHistory, singleActionTraces, List.append_assoc]

/-- C10: when the single capability of an agent is an Action that always
returns done = false and does not touch the run state, its result string
res (universally quantified and absent from the final state) is discarded
entirely: over one whole Agent.execute call the history grows exactly by
the start message and the fixed trace messages plus the budget message,
the execution context is unchanged (the loop itself never calls
updateState), and nothing of the pending result is passed on. -/
theorem agent_discards_pending_results
    (a : Action) (res : EffState → String)
    (ha : ∀ s : EffState, a.handle [] s
      = (.ok { done := false, result := res s }, s))
    (nm ds : String) (N : Nat) (s₀ : EffState)
    (hnat : ∀ k, s₀.oracle.nats k = 0) :
    (createAgent { name := nm, description := ds, actions := some [a]
                   workflows := some [], agents := some [] }).execute (some N) s₀
      = (.ok { done := true
               result := "Agent reached maximum loops (" ++ toString N ++ ")" },
         { s₀ with
             store :=
               { conversationHistory := s₀.store.conversationHistory
                   ++ ("Starting agent: " ++ nm) :: singleActionTraces a.name N 0 N
                 executionState := s₀.store.executionState }
             natCalls := s₀.natCalls + N }) := by
  have h := agentLoop_single_action a res id (fun s => ha s)
    { name := nm, description := ds, actions := some [a]
      workflows := some [], agents := some [] } rfl N N 0
    { s₀ with store := appendHistory ("Starting agent: " ++ nm) s₀.store }
    (fun k => hnat k)
  refine Eq.trans h ?_
  rw [singleActionStore_id]
  simp [appendHistory, List.append_assoc]

/-- Witness for C10 with budget one. -/
theorem agent_discards_pending_results_witness :
    (createAgent { name := "Solo2", description := "single pending action"
                   actions := some [loopingAction], workflows := some []
                   agents := some [] }).execute (some 1) sampleState
      = (.ok { done := true
               result := "Agent reached maximum loops (" ++ toString 1 ++ ")" },
         { sampleState with
             store :=
               { conversationHistory := sampleState.store.conversationHistory
                   ++ ("Starting agent: " ++ "Solo2")
                        :: singleActionTraces loopingAction.name 1 0 1
                 executionState := sampleState.store.executionState }
             natCalls := sampleState.natCalls + 1 }) :=
  agent_discards_pending_results loopingAction (fun _ => "working")
    (fun _ => rfl) "Solo2" "single pending action" 1 sampleState (fun _ => rfl)

-- ===== C4: out-of-range selection is a defect =====

/-- C4: for every agent with a non-empty capability set and a positive
loop budget, if the decision provider produces a selection index outside
the candidate range, Agent.execute terminates the run as a defect (the
Effect.die channel, carrying the impossible-index message) and never as a
normal typed error value: the second conjunct states the outcome differs
from every error outcome. -/
theorem agent_out_of_range_defect (cfg : AgentConfig) (opts : Option Nat)
    (s₀ : EffState) (hne : capabilitiesList cfg ≠ [])
    (hml : 0 < opts.getD 10)
    (hidx : (capabilitiesList cfg).length ≤ s₀.oracle.nats s₀.natCalls) :
    ((createAgent cfg).execute opts s₀
      = (.defect ("Impossible: index " ++ toString (s₀.oracle.nats s₀.natCalls)
          ++ " out of bounds for array of length "
          ++ toString (capabilitiesList cfg).length),
         { s₀ with
             store := appendHistory
               ("Agent loop 1/" ++ toString (opts.getD 10))
               (appendHistory ("Starting agent: " ++ cfg.name) s₀.store)
             natCalls := s₀.natCalls + 1 }))
    ∧ ∀ (e : AgentError) (t : EffState),
        (createAgent cfg).execute opts s₀ ≠ (.error e, t) := by
  obtain ⟨m, hm⟩ : ∃ m, opts.getD 10 = m + 1 := ⟨opts.getD 10 - 1, by omega⟩
  have hnone : (capabilitiesList cfg).get? (s₀.oracle.nats s₀.natCalls) = none :=
    List.get?_eq_none.mpr hidx
  have hmain : (createAgent cfg).execute opts s₀
      = (.defect ("Impossible: index " ++ toString (s₀.oracle.nats s₀.natCalls)
          ++ " out of bounds for array of length "
          ++ toString (capabilitiesList cfg).length),
         { s₀ with
             store := appendHistory
               ("Agent loop 1/" ++ toString (opts.getD 10))
               (appendHistory ("Starting agent: " ++ cfg.name) s₀.store)
             natCalls := s₀.natCalls + 1 }) := by
    show Eff.bind (addMessage _) (fun _ =>
      agentLoop cfg (opts.getD 10) 0 (opts.getD 10)) s₀ = _
    rw [hm]
    show agentLoop cfg (m + 1) 0 (m + 1)
      { s₀ with store := appendHistory ("Starting agent: " ++ cfg.name) s₀.store }
      = _
    simp only [agentLoop, Eff.bind, addMessage, Eff.pure, nextNat]
    rw [if_neg (fun hl => hne (List.length_eq_zero.mp hl))]
    simp only [Eff.bind, nextNat]
    rw [hnone]
    rfl
  refine ⟨hmain, ?_⟩
  intro e t hcontra
  rw [hmain] at hcontra
  injection hcontra with h1 _
  exact RunResult.noConfusion h1

/-- A run state whose decision provider always answers with the
out-of-range selection index five. -/
def outOfRangeState : EffState :=
  { store := { conversationHistory := [], executionState := [] }
    oracle := { bools := fun _ => true, nats := fun _ => 5 }
    boolCalls := 0, natCalls := 0 }

/-- Witness for C4 at a one-action agent and index five. -/
theorem agent_out_of_range_defect_witness :
    ((createAgent { name := "OneAction", description := "one capability"
                    actions := some [loopingAction], workflows := some []
                    agents := some [] }).execute (some 1) outOfRangeState
      = (.defect ("Impossible: index "
          ++ toString (outOfRangeState.oracle.nats outOfRangeState.natCalls)
          ++ " out of bounds for array of length "
          ++ toString (capabilitiesList
               { name := "OneAction", description := "one capability"
                 actions := some [loopingAction], workflows := some []
                 agents := some [] }).length),
         { outOfRangeState with
             store := appendHistory
               ("Agent loop 1/" ++ toString ((some 1).getD 10))
               (appendHistory ("Starting agent: " ++ "OneAction")
                 outOfRangeState.store)
             natCalls := outOfRangeState.natCalls + 1 }))
    ∧ (createAgent { name := "OneAction", description := "one capability"
                     actions := some [loopingAction], workflows := some []
                     agents := some [] }).execute (some 1) outOfRangeState
        ≠ (.error (.parseError "x"), outOfRangeState) :=
  ⟨(agent_out_of_range_defect _ (some 1) outOfRangeState
      (by simp [capabilitiesList]) (by decide) (by decide)).1,
   (agent_out_of_range_defect _ (some 1) outOfRangeState
      (by simp [capabilitiesList]) (by decide) (by decide)).2
     (.parseError "x") outOfRangeState⟩

end Agents
